import Mathlib

/-!
# Client payment blocks

A shallow embedding of `main.go`: the `client_payment_blocks` table, the three
handlers `blockClient`, `unblockClient`, `getBlockStatus` that the router mounts
under `/internal/v1/clients/:clientId/payment-block`, and the properties of the
block life cycle.

What the handlers take from their surroundings is made explicit:

* the table is a list of rows (`Store`), in insertion order; a time is a count
  of nanoseconds, and the table keeps whole microseconds;
* `time.Now().UTC()`, `uuid.New()` and whether the lookup or the write
  statement of the request fails for a reason outside the table's contents are
  fields of `Env`;
* the table already exists when the program starts (nothing is migrated), so
  whether it carries a uniqueness constraint on the active row of a client is
  a parameter, `Schema`;
* a lookup returns an error when it fails or when no row matches. The handlers
  test that error only against nil.
-/

namespace PaymentBlock

/-! ## Identifiers -/

/-- A UUID is sixteen bytes. It is kept as the number those bytes spell, most
significant byte first: comparing these numbers is comparing the bytes in order,
which is how the database orders uuid keys. -/
abbrev UUID := Nat

/-- The UTF-8 bytes of one character: a Go string is indexed by byte. -/
def utf8Char (c : Char) : List Nat :=
  let n := c.toNat
  if n < 128 then [n]
  else if n < 2048 then [192 + n / 64, 128 + n % 64]
  else if n < 65536 then [224 + n / 4096, 128 + n / 64 % 64, 128 + n % 64]
  else [240 + n / 262144, 128 + n / 4096 % 64, 128 + n / 64 % 64, 128 + n % 64]

/-- The bytes of a string. -/
def goBytes (s : String) : List Nat :=
  s.toList.flatMap utf8Char

/-- The table `xvalues` of the uuid package: the value of a hexadecimal digit,
255 for every other byte. -/
def xvalue (b : Nat) : Nat :=
  if 48 ≤ b ∧ b ≤ 57 then b - 48
  else if 65 ≤ b ∧ b ≤ 70 then b - 55
  else if 97 ≤ b ∧ b ≤ 102 then b - 87
  else 255

/-- The function `xtob` of the uuid package: two hexadecimal digits to a byte. -/
def xtob (x1 x2 : Nat) : Option Nat :=
  let b1 := xvalue x1
  let b2 := xvalue x2
  if b1 ≠ 255 ∧ b2 ≠ 255 then some (b1 * 16 + b2) else none

/-- The bytes read at the given offsets of `s`, two digits each. -/
def hexPairs (s : List Nat) : List Nat → Option (List Nat)
  | [] => some []
  | x :: xs =>
    match xtob (s.getD x 0) (s.getD (x + 1) 0) with
    | none => none
    | some v =>
      match hexPairs s xs with
      | none => none
      | some vs => some (v :: vs)

/-- Sixteen bytes as one number, most significant first. -/
def fromBytes (bs : List Nat) : UUID :=
  bs.foldl (fun acc b => acc * 256 + b) 0

/-- ASCII lower case of one byte. -/
def lowerAscii (b : Nat) : Nat :=
  if 65 ≤ b ∧ b ≤ 90 then b + 32 else b

/-- The form `xxxxxxxx-xxxx-xxxx-xxxx-xxxxxxxxxxxx`, on at least 36 bytes. -/
def parseDashed (t : List Nat) : Option UUID :=
  if t.getD 8 0 ≠ 45 ∨ t.getD 13 0 ≠ 45 ∨ t.getD 18 0 ≠ 45 ∨ t.getD 23 0 ≠ 45 then none
  else (hexPairs t [0, 2, 4, 6, 9, 11, 14, 16, 19, 21, 24, 26, 28, 30, 32, 34]).map fromBytes

/-- The function `uuid.Parse` of `github.com/google/uuid`, which every handler
applies to the `clientId` path parameter: a switch on the byte length of the
text (36 plain, 45 with `urn:uuid:` in front, 38 inside one enclosing pair of
characters, 32 without dashes), every other length being an error. -/
def uuidParse (str : String) : Option UUID :=
  let s := goBytes str
  if s.length = 36 then parseDashed s
  else if s.length = 45 then
    if (s.take 9).map lowerAscii ≠ goBytes "urn:uuid:" then none else parseDashed (s.drop 9)
  else if s.length = 38 then parseDashed (s.drop 1)
  else if s.length = 32 then
    (hexPairs s [0, 2, 4, 6, 8, 10, 12, 14, 16, 18, 20, 22, 24, 26, 28, 30]).map fromBytes
  else none

/-! ## Data model -/

/-- The struct `ClientPaymentBlock`, one row of `client_payment_blocks`. Times
are instants in UTC, in nanoseconds from a fixed epoch, the resolution of
`time.Time`; a nil pointer is `none`. -/
structure ClientPaymentBlock where
  ID : UUID
  ClientID : UUID
  IsActive : Bool
  BlockType : String
  ReasonDescription : String
  CreatedAt : Nat
  CreatedByUserID : String
  UnblockedAt : Option Nat
  UnblockedByUserID : Option String
deriving DecidableEq, Repr

/-- The struct `NewBlockRequest`: the decoded body of a POST. -/
structure NewBlockRequest where
  BlockType : String
  ReasonDescription : String
  CreatedByUserID : String
deriving DecidableEq, Repr

/-- The struct `UnblockRequest`: the decoded body of a DELETE. -/
structure UnblockRequest where
  UnblockedByUserID : String
deriving DecidableEq, Repr

/-- The call `c.ShouldBindJSON(&req)` for a `NewBlockRequest`. The body is given
already decoded (`none` when it is not a JSON object of strings, an absent field
decoding to the empty string); every field is tagged `binding:"required"`, which
rejects the empty string. -/
def bindNewBlock (body : Option NewBlockRequest) : Option NewBlockRequest :=
  match body with
  | none => none
  | some req =>
    if req.BlockType = "" ∨ req.ReasonDescription = "" ∨ req.CreatedByUserID = "" then none
    else some req

/-- The call `c.ShouldBindJSON(&req)` for an `UnblockRequest`. -/
def bindUnblock (body : Option UnblockRequest) : Option UnblockRequest :=
  match body with
  | none => none
  | some req => if req.UnblockedByUserID = "" then none else some req

/-! ## The table -/

/-- The rows of `client_payment_blocks`. -/
abbrev Store := List ClientPaymentBlock

/-- What is known of the existing table beyond the struct tags: whether it
carries a uniqueness constraint over `client_id` restricted to the rows with
`is_active = true`. The tag on `ClientID` names an index without asking for
uniqueness. -/
structure Schema where
  uniqueActive : Bool
deriving DecidableEq, Repr

/-- Errors of a database call. -/
inductive DbError where
  | recordNotFound
  | duplicateKey
  | duplicateActive
  | unavailable
deriving DecidableEq, Repr

/-- The column `id` is the primary key: no two rows share it. -/
def pkUnique (db : Store) : Prop :=
  (db.map (fun r => r.ID)).Nodup

instance (db : Store) : Decidable (pkUnique db) := by
  unfold pkUnique; infer_instance

/-- The rows selected by `client_id = ? AND is_active = true`. -/
def activeOf (db : Store) (clientID : UUID) : List ClientPaymentBlock :=
  db.filter (fun r => r.ClientID == clientID && r.IsActive)

/-- The row with the lowest primary key: `First` orders by primary key and
keeps one row. -/
def lowestId : List ClientPaymentBlock → Option ClientPaymentBlock
  | [] => none
  | r :: rs =>
    match lowestId rs with
    | none => some r
    | some m => if r.ID ≤ m.ID then some r else some m

/-- A time as the table keeps it: a timestamp column of PostgreSQL holds whole
microseconds, the rest of the nanosecond count is cut off. -/
def storedTime (t : Nat) : Nat :=
  t / 1000 * 1000

/-- A record as the table keeps it. -/
def storedRow (r : ClientPaymentBlock) : ClientPaymentBlock :=
  { r with
    CreatedAt := storedTime r.CreatedAt
    UnblockedAt := r.UnblockedAt.map storedTime }

/-- The query `db.Where("client_id = ? AND is_active = true", clientID).First(&x)`.
Its error is non-nil when the query cannot be carried out (`fault`) and when no
row matches. -/
def dbFirstActive (fault : Bool) (db : Store) (clientID : UUID) :
    Except DbError ClientPaymentBlock :=
  if fault then .error .unavailable
  else
    match lowestId (activeOf db clientID) with
    | some r => .ok r
    | none => .error .recordNotFound

/-- The statement `db.Create(&entry)`: an INSERT. It fails when the statement
cannot be carried out (`fault`), when the key is taken and, on a table with the
constraint on active rows, when the client already has an active row. A failed
statement leaves the table as it was; a successful one adds the entry as the
table keeps it. -/
def dbCreate (sch : Schema) (fault : Bool) (db : Store) (entry : ClientPaymentBlock) :
    Except DbError Store :=
  if fault then .error .unavailable
  else if db.any (fun r => r.ID == entry.ID) then .error .duplicateKey
  else if sch.uniqueActive && entry.IsActive && !(activeOf db entry.ClientID).isEmpty then
    .error .duplicateActive
  else .ok (db ++ [storedRow entry])

/-- The statement `db.Save(&block)`: an UPDATE of every column of the row that
has the key of `block` (keys being non-nil UUIDs); when no row has that key the
block is inserted. -/
def dbSave (sch : Schema) (fault : Bool) (db : Store) (block : ClientPaymentBlock) :
    Except DbError Store :=
  if fault then .error .unavailable
  else if sch.uniqueActive && block.IsActive
      && db.any (fun r => r.ClientID == block.ClientID && r.IsActive && r.ID != block.ID) then
    .error .duplicateActive
  else if db.any (fun r => r.ID == block.ID) then
    .ok (db.map (fun r => if r.ID = block.ID then storedRow block else r))
  else .ok (db ++ [storedRow block])

/-! ## The handlers -/

/-- What one request meets outside the table's contents: the reading of
`time.Now().UTC()`, the key `uuid.New()` returns, whether its lookup fails and
whether its write statement fails. -/
structure Env where
  now : Nat
  newId : UUID
  readFault : Bool
  writeFault : Bool
deriving DecidableEq, Repr

/-- The reply written with `c.JSON`: the status and, on success, the record.
An error body is a single message, kept out of the model. -/
structure Response where
  status : Nat
  body : Option ClientPaymentBlock
deriving DecidableEq, Repr

/-- The record `blockClient` builds (the composite literal `entry`). -/
def newEntry (env : Env) (clientID : UUID) (req : NewBlockRequest) : ClientPaymentBlock :=
  { ID := env.newId
    ClientID := clientID
    IsActive := true
    BlockType := req.BlockType
    ReasonDescription := req.ReasonDescription
    CreatedAt := env.now
    CreatedByUserID := req.CreatedByUserID
    UnblockedAt := none
    UnblockedByUserID := none }

/-- First part of `blockClient`, up to and including the lookup of an active
block: the reply when the handler returns there, otherwise the parsed client
and request it goes on with. Only a lookup without error is answered 409: on
any lookup error the handler goes on. -/
def blockClientCheck (env : Env) (db : Store) (clientIdParam : String)
    (body : Option NewBlockRequest) : Except Response (UUID × NewBlockRequest) :=
  match uuidParse clientIdParam with
  | none => .error ⟨400, none⟩
  | some clientID =>
    match bindNewBlock body with
    | none => .error ⟨400, none⟩
    | some req =>
      match dbFirstActive env.readFault db clientID with
      | .ok _ => .error ⟨409, none⟩
      | .error _ => .ok (clientID, req)

/-- Second part of `blockClient`: build the entry and insert it. The reply
carries the entry as built. -/
def blockClientInsert (sch : Schema) (env : Env) (db : Store) (clientID : UUID)
    (req : NewBlockRequest) : Response × Store :=
  let entry := newEntry env clientID req
  match dbCreate sch env.writeFault db entry with
  | .error _ => (⟨500, none⟩, db)
  | .ok db1 => (⟨201, some entry⟩, db1)

/-- The handler `blockClient`, run without interruption. -/
def blockClient (sch : Schema) (env : Env) (db : Store) (clientIdParam : String)
    (body : Option NewBlockRequest) : Response × Store :=
  match blockClientCheck env db clientIdParam body with
  | .error resp => (resp, db)
  | .ok p => blockClientInsert sch env db p.1 p.2

/-- The block after the three assignments of `unblockClient`. -/
def lifted (env : Env) (block : ClientPaymentBlock) (req : UnblockRequest) :
    ClientPaymentBlock :=
  { block with
    IsActive := false
    UnblockedAt := some env.now
    UnblockedByUserID := some req.UnblockedByUserID }

/-- The handler `unblockClient`. Any lookup error is answered 404; the reply on
success carries the block as assigned in memory. -/
def unblockClient (sch : Schema) (env : Env) (db : Store) (clientIdParam : String)
    (body : Option UnblockRequest) : Response × Store :=
  match uuidParse clientIdParam with
  | none => (⟨400, none⟩, db)
  | some clientID =>
    match bindUnblock body with
    | none => (⟨400, none⟩, db)
    | some req =>
      match dbFirstActive env.readFault db clientID with
      | .error _ => (⟨404, none⟩, db)
      | .ok block =>
        let block1 := lifted env block req
        match dbSave sch env.writeFault db block1 with
        | .error _ => (⟨500, none⟩, db)
        | .ok db1 => (⟨200, some block1⟩, db1)

/-- The handler `getBlockStatus`. It issues no write; any lookup error is
answered 404. -/
def getBlockStatus (env : Env) (db : Store) (clientIdParam : String) : Response :=
  match uuidParse clientIdParam with
  | none => ⟨400, none⟩
  | some clientID =>
    match dbFirstActive env.readFault db clientID with
    | .error _ => ⟨404, none⟩
    | .ok block => ⟨200, some block⟩

/-- A request to one of the three routes. -/
inductive Request where
  | post (clientIdParam : String) (body : Option NewBlockRequest)
  | delete (clientIdParam : String) (body : Option UnblockRequest)
  | get (clientIdParam : String)
deriving DecidableEq, Repr

/-- Whether the request is a POST, the one route that inserts. -/
def Request.isPost : Request → Bool
  | .post _ _ => true
  | .delete _ _ => false
  | .get _ => false

/-- The router of `main`: POST to `blockClient`, DELETE to `unblockClient`, GET
to `getBlockStatus`. The result is the reply and the table afterwards. -/
def serve (sch : Schema) (db : Store) (env : Env) : Request → Response × Store
  | .post p body => blockClient sch env db p body
  | .delete p body => unblockClient sch env db p body
  | .get p => (getBlockStatus env db p, db)

/-- Requests served one at a time, each with its own surroundings. -/
def serveAll (sch : Schema) : Store → List (Env × Request) → Store
  | db, [] => db
  | db, (env, rq) :: rest => serveAll sch (serve sch db env rq).2 rest

/-! ## Two `blockClient` requests in flight -/

/-- Where a `blockClient` request stands: not started, past the lookup with the
insert still to come, or answered. -/
inductive BlockPhase where
  | start
  | checked (clientID : UUID) (req : NewBlockRequest)
  | done (resp : Response)
deriving DecidableEq, Repr

/-- One database round of a `blockClient` request against the table as it is at
that moment. -/
def blockStep (sch : Schema) (env : Env) (clientIdParam : String)
    (body : Option NewBlockRequest) (db : Store) : BlockPhase → BlockPhase × Store
  | .start =>
    match blockClientCheck env db clientIdParam body with
    | .error resp => (.done resp, db)
    | .ok p => (.checked p.1 p.2, db)
  | .checked clientID req =>
    let out := blockClientInsert sch env db clientID req
    (.done out.1, out.2)
  | .done resp => (.done resp, db)

/-- A `blockClient` request as it arrives. -/
structure BlockCall where
  env : Env
  clientIdParam : String
  body : Option NewBlockRequest
deriving DecidableEq, Repr

/-- Two requests advanced along a schedule: `true` lets the first take its next
round, `false` the second. -/
def interleave (sch : Schema) (a b : BlockCall) :
    List Bool → BlockPhase × BlockPhase × Store → BlockPhase × BlockPhase × Store
  | [], st => st
  | true :: rest, (pa, pb, db) =>
    let out := blockStep sch a.env a.clientIdParam a.body db pa
    interleave sch a b rest (out.1, pb, out.2)
  | false :: rest, (pa, pb, db) =>
    let out := blockStep sch b.env b.clientIdParam b.body db pb
    interleave sch a b rest (pa, out.1, out.2)

/-- At most one active block per client. -/
def atMostOneActive (db : Store) : Prop :=
  ∀ clientID : UUID, (activeOf db clientID).length ≤ 1

/-- Unblock fields and the active flag agree on every row: both unset on an
active row, both set on a lifted one. -/
def liftedFieldsOk (db : Store) : Prop :=
  ∀ r ∈ db, (r.IsActive = true → r.UnblockedAt = none ∧ r.UnblockedByUserID = none) ∧
    (r.IsActive = false → r.UnblockedAt.isSome = true ∧ r.UnblockedByUserID.isSome = true)

instance (db : Store) : Decidable (liftedFieldsOk db) := by
  unfold liftedFieldsOk; infer_instance

/-! ## Sample data -/

/-- A client identifier in the plain 36-byte form. -/
def clientA : String := "123e4567-e89b-12d3-a456-426614174000"

/-- The identifier `clientA` parses to. -/
def clientAId : UUID := 0x123e4567e89b12d3a456426614174000

/-- The body of the create call of scenario A. -/
def fraudBody : NewBlockRequest :=
  { BlockType := "FRAUD", ReasonDescription := "suspicious activity", CreatedByUserID := "agent-1" }

/-- Surroundings of a request: the clock, the generated key, no fault. -/
def envAt (now : Nat) (newId : UUID) : Env :=
  { now := now, newId := newId, readFault := false, writeFault := false }

/-- Surroundings of a request whose lookup fails. -/
def envLookupFails (now : Nat) (newId : UUID) : Env :=
  { now := now, newId := newId, readFault := true, writeFault := false }

/-- Surroundings of a request whose write statement fails. -/
def envWriteFails (now : Nat) (newId : UUID) : Env :=
  { now := now, newId := newId, readFault := false, writeFault := true }

/-- An active block of `clientAId` with the given key. -/
def activeRow (id : UUID) : ClientPaymentBlock :=
  { ID := id
    ClientID := clientAId
    IsActive := true
    BlockType := "FRAUD"
    ReasonDescription := "suspicious activity"
    CreatedAt := 100000
    CreatedByUserID := "agent-1"
    UnblockedAt := none
    UnblockedByUserID := none }

/-- A lifted block of `clientAId` with the given key. -/
def liftedRow (id : UUID) : ClientPaymentBlock :=
  { activeRow id with
    IsActive := false
    UnblockedAt := some 150000
    UnblockedByUserID := some "agent-3" }

/-- The create call of scenario A, as one request in flight. -/
def callA : BlockCall :=
  { env := envAt 100000 7, clientIdParam := clientA, body := some fraudBody }

/-- A second create call for the same client, with its own generated key. -/
def callB : BlockCall :=
  { env := envAt 101000 8, clientIdParam := clientA, body := some ⟨"FRAUD", "dup", "agent-2"⟩ }

/-- The record `callB` builds. -/
def entryB : ClientPaymentBlock :=
  { ID := 8
    ClientID := clientAId
    IsActive := true
    BlockType := "FRAUD"
    ReasonDescription := "dup"
    CreatedAt := 101000
    CreatedByUserID := "agent-2"
    UnblockedAt := none
    UnblockedByUserID := none }

/-! ## The lookup -/

theorem lowestId_mem {l : List ClientPaymentBlock} {r : ClientPaymentBlock}
    (h : lowestId l = some r) : r ∈ l := by
  induction l generalizing r with
  | nil => simp [lowestId] at h
  | cons x xs ih =>
    unfold lowestId at h
    cases hm : lowestId xs with
    | none =>
      rw [hm] at h
      simp at h
      simp [h]
    | some m =>
      rw [hm] at h
      simp only at h
      split at h
      · simp at h; simp [h]
      · simp at h; subst h; exact List.mem_cons_of_mem _ (ih hm)

theorem lowestId_eq_none {l : List ClientPaymentBlock} : lowestId l = none ↔ l = [] := by
  cases l with
  | nil => simp [lowestId]
  | cons x xs =>
    unfold lowestId
    cases lowestId xs with
    | none => simp
    | some m => simp only; split <;> simp

theorem mem_activeOf {db : Store} {clientID : UUID} {r : ClientPaymentBlock} :
    r ∈ activeOf db clientID ↔ r ∈ db ∧ r.ClientID = clientID ∧ r.IsActive = true := by
  simp [activeOf]

theorem activeOf_append (db1 db2 : Store) (clientID : UUID) :
    activeOf (db1 ++ db2) clientID = activeOf db1 clientID ++ activeOf db2 clientID := by
  simp [activeOf]

theorem dbFirstActive_fault (db : Store) (clientID : UUID) :
    dbFirstActive true db clientID = .error .unavailable := by
  simp [dbFirstActive]

theorem dbFirstActive_ok {fault : Bool} {db : Store} {clientID : UUID}
    {r : ClientPaymentBlock} (h : dbFirstActive fault db clientID = .ok r) :
    fault = false ∧ r ∈ db ∧ r.ClientID = clientID ∧ r.IsActive = true := by
  cases fault with
  | true => rw [dbFirstActive_fault] at h; simp at h
  | false =>
    refine ⟨rfl, ?_⟩
    unfold dbFirstActive at h
    simp only [Bool.false_eq_true, if_false] at h
    cases hm : lowestId (activeOf db clientID) with
    | none => rw [hm] at h; simp at h
    | some m =>
      rw [hm] at h
      simp only [Except.ok.injEq] at h
      subst h
      exact mem_activeOf.mp (lowestId_mem hm)

theorem dbFirstActive_error {fault : Bool} {db : Store} {clientID : UUID} {e : DbError}
    (h : dbFirstActive fault db clientID = .error e) :
    fault = true ∨ activeOf db clientID = [] := by
  cases fault with
  | true => left; rfl
  | false =>
    right
    unfold dbFirstActive at h
    simp only [Bool.false_eq_true, if_false] at h
    cases hm : lowestId (activeOf db clientID) with
    | none => exact lowestId_eq_none.mp hm
    | some m => rw [hm] at h; simp at h

theorem dbFirstActive_of_nil {db : Store} {clientID : UUID}
    (h : activeOf db clientID = []) :
    dbFirstActive false db clientID = .error .recordNotFound := by
  simp [dbFirstActive, h, lowestId]

theorem dbFirstActive_error_of_nil (fault : Bool) {db : Store} {clientID : UUID}
    (h : activeOf db clientID = []) : ∃ e, dbFirstActive fault db clientID = .error e := by
  cases fault with
  | true => exact ⟨_, dbFirstActive_fault db clientID⟩
  | false => exact ⟨_, dbFirstActive_of_nil h⟩

theorem dbFirstActive_of_singleton {db : Store} {clientID : UUID} {r : ClientPaymentBlock}
    (h : activeOf db clientID = [r]) : dbFirstActive false db clientID = .ok r := by
  simp [dbFirstActive, h, lowestId]

theorem dbFirstActive_of_mem {db : Store} {clientID : UUID} {r : ClientPaymentBlock}
    (hr : r ∈ db) (hc : r.ClientID = clientID) (ha : r.IsActive = true) :
    ∃ b, dbFirstActive false db clientID = .ok b := by
  cases h : dbFirstActive false db clientID with
  | ok b => exact ⟨b, rfl⟩
  | error e =>
    rcases dbFirstActive_error h with hf | hnil
    · simp at hf
    · have hm : r ∈ activeOf db clientID := mem_activeOf.mpr ⟨hr, hc, ha⟩
      rw [hnil] at hm
      simp at hm

theorem activeOf_eq_singleton {db : Store} {clientID : UUID} {r : ClientPaymentBlock}
    (hlen : (activeOf db clientID).length ≤ 1) (hm : r ∈ activeOf db clientID) :
    activeOf db clientID = [r] := by
  match hl : activeOf db clientID with
  | [] => rw [hl] at hm; simp at hm
  | [x] => rw [hl] at hm; simp at hm; rw [hm]
  | x :: y :: rest => rw [hl] at hlen; simp at hlen

theorem atMostOneActive_iff (db : Store) :
    atMostOneActive db ↔ ∀ r ∈ db, (activeOf db r.ClientID).length ≤ 1 := by
  constructor
  · intro h r _
    exact h r.ClientID
  · intro h clientID
    match hl : activeOf db clientID with
    | [] => simp
    | x :: rest =>
      have hx : x ∈ activeOf db clientID := by rw [hl]; simp
      have hx2 := mem_activeOf.mp hx
      have := h x hx2.1
      rw [hx2.2.1, hl] at this
      exact this

/-! ## The handlers, case by case -/

theorem dbCreate_ok_iff {sch : Schema} {fault : Bool} {db db1 : Store}
    {entry : ClientPaymentBlock} (h : dbCreate sch fault db entry = .ok db1) :
    fault = false ∧ (∀ r ∈ db, r.ID ≠ entry.ID) ∧
      (sch.uniqueActive = true → entry.IsActive = true → activeOf db entry.ClientID = []) ∧
      db1 = db ++ [storedRow entry] := by
  unfold dbCreate at h
  split at h
  · simp at h
  · split at h
    · simp at h
    · split at h
      · simp at h
      · rename_i hf hk hu
        simp only [Except.ok.injEq] at h
        refine ⟨by simpa using hf, ?_, ?_, h.symm⟩
        · intro r hr heq
          apply hk
          simp only [List.any_eq_true, beq_iff_eq]
          exact ⟨r, hr, heq⟩
        · intro h1 h2
          simpa [h1, h2] using hu

theorem dbCreate_fresh {sch : Schema} {db : Store} {entry : ClientPaymentBlock}
    (hk : ∀ r ∈ db, r.ID ≠ entry.ID) (hn : activeOf db entry.ClientID = []) :
    dbCreate sch false db entry = .ok (db ++ [storedRow entry]) := by
  unfold dbCreate
  have h1 : db.any (fun r => r.ID == entry.ID) = false := by
    rw [List.any_eq_false]
    intro r hr
    simpa using hk r hr
  simp [h1, hn]

theorem blockClient_cases (sch : Schema) (env : Env) (db : Store) (p : String)
    (body : Option NewBlockRequest) :
    (((blockClient sch env db p body).1.status = 400 ∨
        (blockClient sch env db p body).1.status = 409 ∨
        (blockClient sch env db p body).1.status = 500) ∧
      (blockClient sch env db p body).1.body = none ∧
      (blockClient sch env db p body).2 = db) ∨
    ∃ clientID req, uuidParse p = some clientID ∧ bindNewBlock body = some req ∧
      (activeOf db clientID = [] ∨ (env.readFault = true ∧ sch.uniqueActive = false)) ∧
      (∀ r ∈ db, r.ID ≠ env.newId) ∧ env.writeFault = false ∧
      blockClient sch env db p body =
        (⟨201, some (newEntry env clientID req)⟩,
          db ++ [storedRow (newEntry env clientID req)]) := by
  unfold blockClient blockClientCheck
  cases hp : uuidParse p with
  | none => left; simp
  | some clientID =>
    cases hb : bindNewBlock body with
    | none => left; simp
    | some req =>
      dsimp only
      cases hf : dbFirstActive env.readFault db clientID with
      | ok b => left; simp
      | error e =>
        simp only [blockClientInsert]
        cases hc : dbCreate sch env.writeFault db (newEntry env clientID req) with
        | error e2 => left; simp
        | ok db1 =>
          right
          obtain ⟨h1, h2, h3, h4⟩ := dbCreate_ok_iff hc
          refine ⟨clientID, req, rfl, rfl, ?_, ?_, h1, ?_⟩
          · rcases dbFirstActive_error hf with hr | hn
            · cases hu : sch.uniqueActive with
              | true => left; exact h3 hu rfl
              | false => right; exact ⟨hr, rfl⟩
            · left; exact hn
          · intro r hr; exact h2 r hr
          · simp [h4]

theorem dbSave_lifted {sch : Schema} {env : Env} {db : Store} {block : ClientPaymentBlock}
    {req : UnblockRequest} (hm : block ∈ db) :
    dbSave sch false db (lifted env block req) =
      .ok (db.map (fun r => if r.ID = block.ID then storedRow (lifted env block req) else r)) := by
  unfold dbSave
  have h1 : db.any (fun r => r.ID == block.ID) = true := by
    simp only [List.any_eq_true, beq_iff_eq]
    exact ⟨block, hm, rfl⟩
  have h2 : (lifted env block req).IsActive = false := rfl
  have h3 : (lifted env block req).ID = block.ID := rfl
  simp [h1, h2, h3]

theorem dbSave_fault {sch : Schema} {db : Store} {block : ClientPaymentBlock} :
    dbSave sch true db block = .error .unavailable := by
  simp [dbSave]

theorem unblockClient_cases (sch : Schema) (env : Env) (db : Store) (p : String)
    (body : Option UnblockRequest) :
    (((unblockClient sch env db p body).1.status = 400 ∨
        (unblockClient sch env db p body).1.status = 404 ∨
        (unblockClient sch env db p body).1.status = 500) ∧
      (unblockClient sch env db p body).1.body = none ∧
      (unblockClient sch env db p body).2 = db) ∨
    ∃ clientID req block, uuidParse p = some clientID ∧ bindUnblock body = some req ∧
      dbFirstActive env.readFault db clientID = .ok block ∧ env.writeFault = false ∧
      unblockClient sch env db p body =
        (⟨200, some (lifted env block req)⟩,
          db.map (fun r => if r.ID = block.ID then storedRow (lifted env block req) else r)) := by
  unfold unblockClient
  cases hp : uuidParse p with
  | none => left; simp
  | some clientID =>
    cases hb : bindUnblock body with
    | none => left; simp
    | some req =>
      dsimp only
      cases hf : dbFirstActive env.readFault db clientID with
      | error e => left; simp
      | ok block =>
        dsimp only
        cases hw : env.writeFault with
        | true => left; simp [dbSave_fault]
        | false =>
          right
          refine ⟨clientID, req, block, rfl, rfl, hf, rfl, ?_⟩
          simp [dbSave_lifted (dbFirstActive_ok hf).2.1]

theorem bindNewBlock_some {req : NewBlockRequest} (h1 : req.BlockType ≠ "")
    (h2 : req.ReasonDescription ≠ "") (h3 : req.CreatedByUserID ≠ "") :
    bindNewBlock (some req) = some req := by
  simp [bindNewBlock, h1, h2, h3]

theorem bindUnblock_some {req : UnblockRequest} (h : req.UnblockedByUserID ≠ "") :
    bindUnblock (some req) = some req := by
  simp [bindUnblock, h]

theorem blockClient_created {sch : Schema} {env : Env} {db : Store} {p : String}
    {body : Option NewBlockRequest}
    (h : (blockClient sch env db p body).1.status = 201) :
    ∃ clientID req, uuidParse p = some clientID ∧ bindNewBlock body = some req ∧
      (activeOf db clientID = [] ∨ (env.readFault = true ∧ sch.uniqueActive = false)) ∧
      (∀ r ∈ db, r.ID ≠ env.newId) ∧ env.writeFault = false ∧
      blockClient sch env db p body =
        (⟨201, some (newEntry env clientID req)⟩,
          db ++ [storedRow (newEntry env clientID req)]) := by
  rcases blockClient_cases sch env db p body with hl | hr
  · rcases hl.1 with h1 | h1 | h1 <;> rw [h1] at h <;> simp at h
  · exact hr

theorem unblockClient_done {sch : Schema} {env : Env} {db : Store} {p : String}
    {body : Option UnblockRequest}
    (h : (unblockClient sch env db p body).1.status = 200) :
    ∃ clientID req block, uuidParse p = some clientID ∧ bindUnblock body = some req ∧
      dbFirstActive env.readFault db clientID = .ok block ∧ env.writeFault = false ∧
      unblockClient sch env db p body =
        (⟨200, some (lifted env block req)⟩,
          db.map (fun r => if r.ID = block.ID then storedRow (lifted env block req) else r)) := by
  rcases unblockClient_cases sch env db p body with hl | hr
  · rcases hl.1 with h1 | h1 | h1 <;> rw [h1] at h <;> simp at h
  · exact hr

theorem blockClient_of_active {sch : Schema} {env : Env} {db : Store} {p : String}
    {req : NewBlockRequest} {clientID : UUID} {r : ClientPaymentBlock}
    (hp : uuidParse p = some clientID) (hb : bindNewBlock (some req) = some req)
    (hread : env.readFault = false)
    (hr : r ∈ db) (hc : r.ClientID = clientID) (ha : r.IsActive = true) :
    blockClient sch env db p (some req) = (⟨409, none⟩, db) := by
  obtain ⟨b, hf⟩ := dbFirstActive_of_mem hr hc ha
  simp [blockClient, blockClientCheck, hp, hb, hread, hf]

/-! ## What one request preserves -/

theorem activeOf_singleton_length (e : ClientPaymentBlock) (clientID : UUID) :
    (activeOf [e] clientID).length ≤ 1 := by
  unfold activeOf
  exact le_trans (List.length_filter_le _ _) (by simp)

theorem activeOf_singleton_other {e : ClientPaymentBlock} {clientID : UUID}
    (h : e.ClientID ≠ clientID) : activeOf [e] clientID = [] := by
  simp [activeOf, h]

theorem activeOf_map_length_le (db : Store) (k : UUID) (b1 : ClientPaymentBlock)
    (hb : b1.IsActive = false) (clientID : UUID) :
    (activeOf (db.map (fun r => if r.ID = k then b1 else r)) clientID).length ≤
      (activeOf db clientID).length := by
  induction db with
  | nil => simp [activeOf]
  | cons x xs ih =>
    unfold activeOf at ih ⊢
    simp only [List.map_cons, List.filter_cons]
    by_cases hk : x.ID = k
    · simp only [hk, if_true, hb, Bool.and_false, Bool.false_eq_true, if_false]
      split
      · simp only [List.length_cons]; omega
      · exact ih
    · simp only [hk, if_false]
      split
      · simp only [List.length_cons]; omega
      · exact ih

theorem serve_cases (sch : Schema) (db : Store) (env : Env) (rq : Request) :
    (serve sch db env rq).2 = db ∨
    (∃ clientID req,
      (activeOf db clientID = [] ∨
        (env.readFault = true ∧ sch.uniqueActive = false ∧ rq.isPost = true)) ∧
      (∀ r ∈ db, r.ID ≠ env.newId) ∧
      (serve sch db env rq).2 = db ++ [storedRow (newEntry env clientID req)]) ∨
    (∃ block req, block ∈ db ∧ block.IsActive = true ∧
      (serve sch db env rq).2 =
        db.map (fun r => if r.ID = block.ID then storedRow (lifted env block req) else r)) := by
  cases rq with
  | post p body =>
    rcases blockClient_cases sch env db p body with h | ⟨c, req, _, _, hn, hk, _, heq⟩
    · left; exact h.2.2
    · right; left
      refine ⟨c, req, ?_, hk, by simp [serve, heq]⟩
      rcases hn with hn | ⟨h1, h2⟩
      · left; exact hn
      · right; exact ⟨h1, h2, rfl⟩
  | delete p body =>
    rcases unblockClient_cases sch env db p body with h | ⟨c, req, block, _, _, hf, _, heq⟩
    · left; exact h.2.2
    · right; right
      obtain ⟨_, hm, _, ha⟩ := dbFirstActive_ok hf
      exact ⟨block, req, hm, ha, by simp [serve, heq]⟩
  | get p => left; rfl

theorem serve_atMostOneActive (sch : Schema) (db : Store) (env : Env) (rq : Request)
    (hlook : sch.uniqueActive = true ∨ (rq.isPost = true → env.readFault = false))
    (h : atMostOneActive db) : atMostOneActive (serve sch db env rq).2 := by
  rcases serve_cases sch db env rq with heq | ⟨c, req, hn, _, heq⟩ | ⟨block, req, _, _, heq⟩
  · rw [heq]; exact h
  · have hnil : activeOf db c = [] := by
      rcases hn with hn | ⟨h1, h2, h3⟩
      · exact hn
      · rcases hlook with hu | hp
        · rw [h2] at hu; simp at hu
        · rw [hp h3] at h1; simp at h1
    rw [heq]
    intro clientID
    rw [activeOf_append, List.length_append]
    by_cases hc : c = clientID
    · subst hc
      rw [hnil]
      simpa using activeOf_singleton_length (storedRow (newEntry env c req)) c
    · have : activeOf [storedRow (newEntry env c req)] clientID = [] :=
        activeOf_singleton_other hc
      rw [this]
      simpa using h clientID
  · rw [heq]
    intro clientID
    exact le_trans (activeOf_map_length_le db block.ID _ rfl clientID) (h clientID)

theorem serve_liftedFieldsOk (sch : Schema) (db : Store) (env : Env) (rq : Request)
    (h : liftedFieldsOk db) : liftedFieldsOk (serve sch db env rq).2 := by
  rcases serve_cases sch db env rq with heq | ⟨c, req, _, _, heq⟩ | ⟨block, req, _, _, heq⟩
  · rw [heq]; exact h
  · rw [heq]
    intro r hr
    rcases List.mem_append.mp hr with hr | hr
    · exact h r hr
    · simp only [List.mem_singleton] at hr
      subst hr
      simp [newEntry, storedRow]
  · rw [heq]
    intro r hr
    obtain ⟨x, hx, hfx⟩ := List.mem_map.mp hr
    by_cases hk : x.ID = block.ID
    · simp only [hk, if_true] at hfx
      subst hfx
      simp [lifted, storedRow]
    · simp only [hk, if_false] at hfx
      subst hfx
      exact h x hx

theorem serve_pkUnique (sch : Schema) (db : Store) (env : Env) (rq : Request)
    (h : pkUnique db) : pkUnique (serve sch db env rq).2 := by
  rcases serve_cases sch db env rq with heq | ⟨c, req, _, hk, heq⟩ | ⟨block, req, _, _, heq⟩
  · rw [heq]; exact h
  · rw [heq]
    unfold pkUnique at h ⊢
    rw [List.map_append, List.nodup_append]
    refine ⟨h, by simp, ?_⟩
    intro a ha hb
    simp only [List.map_cons, List.map_nil, List.mem_singleton] at hb
    obtain ⟨r, hr, hra⟩ := List.mem_map.mp ha
    exact hk r hr (by rw [hra, hb]; rfl)
  · rw [heq]
    unfold pkUnique at h ⊢
    have : (db.map (fun r => if r.ID = block.ID then storedRow (lifted env block req)
        else r)).map (fun r => r.ID) = db.map (fun r => r.ID) := by
      rw [List.map_map]
      apply List.map_congr_left
      intro r _
      by_cases hk : r.ID = block.ID
      · simp [hk, lifted, storedRow]
      · simp [hk]
    rw [this]
    exact h

theorem eq_of_pkUnique {db : Store} (h : pkUnique db) {r1 r2 : ClientPaymentBlock}
    (h1 : r1 ∈ db) (h2 : r2 ∈ db) (hid : r1.ID = r2.ID) : r1 = r2 :=
  List.inj_on_of_nodup_map h h1 h2 hid

theorem serve_keeps_lifted (sch : Schema) (db : Store) (env : Env) (rq : Request)
    (hpk : pkUnique db) (hok : liftedFieldsOk db) {r : ClientPaymentBlock} (hr : r ∈ db)
    (hset : r.UnblockedAt ≠ none ∨ r.UnblockedByUserID ≠ none) :
    r ∈ (serve sch db env rq).2 := by
  rcases serve_cases sch db env rq with heq | ⟨c, req, _, _, heq⟩ | ⟨block, req, hm, ha, heq⟩
  · rw [heq]; exact hr
  · rw [heq]; exact List.mem_append_left _ hr
  · rw [heq]
    have hne : r.ID ≠ block.ID := by
      intro hid
      have hrb : r = block := eq_of_pkUnique hpk hr hm hid
      subst hrb
      have := (hok r hr).1 ha
      rcases hset with hs | hs
      · exact hs this.1
      · exact hs this.2
    exact List.mem_map.mpr ⟨r, hr, by simp [hne]⟩

theorem uuidParse_clientA : uuidParse clientA = some clientAId := by decide

/-! ## The claims -/

/-- C1, counterexample. A table without the constraint on active rows holds one
active block of a client. One POST for that client is served while its lookup
fails: the handler tests the lookup error only against nil, goes on to the
insert, and the table ends with two active blocks of the client. -/
theorem second_active_after_failed_lookup :
    atMostOneActive [activeRow 7] ∧
      serveAll ⟨false⟩ [activeRow 7]
        [(envLookupFails 101000 8, .post clientA (some ⟨"FRAUD", "dup", "agent-2"⟩))] =
        [activeRow 7, entryB] ∧
      (activeOf [activeRow 7, entryB] clientAId).length = 2 ∧
      ¬ atMostOneActive (serveAll ⟨false⟩ [activeRow 7]
        [(envLookupFails 101000 8, .post clientA (some ⟨"FRAUD", "dup", "agent-2"⟩))]) :=
  ⟨(atMostOneActive_iff _).mpr (by decide), by decide, by decide,
    fun h => absurd ((atMostOneActive_iff _).mp h) (by decide)⟩

/-- C1, amended. Starting from a table in which every client has at most one
active block, any finite sequence of POST, DELETE and GET requests served one at
a time, whatever their path parameter, body, clock, generated key and write
outcome, leaves a table in which every client has at most one active block,
provided the lookup of every POST is answered by the table or the table carries
the constraint on active rows. -/
theorem uniqueness_invariant_sequential (sch : Schema) (db : Store)
    (reqs : List (Env × Request))
    (hlook : sch.uniqueActive = true ∨
      ∀ x ∈ reqs, x.2.isPost = true → x.1.readFault = false)
    (h : atMostOneActive db) :
    atMostOneActive (serveAll sch db reqs) := by
  induction reqs generalizing db with
  | nil => exact h
  | cons x rest ih =>
    obtain ⟨env, rq⟩ := x
    apply ih
    · exact hlook.imp id (fun hp y hy => hp y (List.mem_cons_of_mem _ hy))
    · exact serve_atMostOneActive sch db env rq
        (hlook.imp id (fun hp => hp (env, rq) (List.mem_cons_self _ _))) h

theorem uniqueness_invariant_sequential_witness :
    atMostOneActive [liftedRow 5, activeRow 7] ∧
      atMostOneActive (serveAll ⟨false⟩ [liftedRow 5, activeRow 7]
        [(envAt 200000 8, .post clientA (some fraudBody)),
         (envAt 210000 9, .delete clientA (some ⟨"agent-3"⟩)),
         (envLookupFails 215000 9, .get clientA),
         (envAt 220000 10, .post clientA (some fraudBody)),
         (envAt 230000 11, .get clientA),
         (envAt 240000 12, .post "c1" (some fraudBody))]) :=
  ⟨(atMostOneActive_iff _).mpr (by decide),
    uniqueness_invariant_sequential _ _ _ (Or.inr (by decide))
      ((atMostOneActive_iff _).mpr (by decide))⟩

/-- C3, counterexample. The table holds an active block of the client and the
POST is well formed, but its lookup fails: on a table without the constraint the
reply is 201 and a second active row is stored, on a table with the constraint
the insert is refused and the reply is 500. Neither reply is 409. -/
theorem conflict_missed_after_failed_lookup :
    activeRow 7 ∈ [activeRow 7] ∧ (activeRow 7).ClientID = clientAId ∧
      (activeRow 7).IsActive = true ∧
      blockClient ⟨false⟩ (envLookupFails 101000 8) [activeRow 7] clientA
          (some ⟨"FRAUD", "dup", "agent-2"⟩) =
        (⟨201, some entryB⟩, [activeRow 7, entryB]) ∧
      blockClient ⟨true⟩ (envLookupFails 101000 8) [activeRow 7] clientA
          (some ⟨"FRAUD", "dup", "agent-2"⟩) =
        (⟨500, none⟩, [activeRow 7]) := by
  decide

/-- C3, amended. On a table that holds an active block of the client, a POST
whose path parameter parses to that client and whose three body fields are
non-empty, and whose lookup is answered by the table, is answered 409 and the
table is left as it was; in particular, after a POST for the client answered
201, such a further POST for the same client is answered 409 and adds no row. -/
theorem block_conflict (sch : Schema) (env : Env) (db : Store) (p : String)
    (req : NewBlockRequest) (clientID : UUID) (hp : uuidParse p = some clientID)
    (h1 : req.BlockType ≠ "") (h2 : req.ReasonDescription ≠ "")
    (h3 : req.CreatedByUserID ≠ "") (hread : env.readFault = false) :
    ((∃ r ∈ db, r.ClientID = clientID ∧ r.IsActive = true) →
      blockClient sch env db p (some req) = (⟨409, none⟩, db)) ∧
    (∀ (env0 : Env) (p0 : String) (body0 : Option NewBlockRequest),
      uuidParse p0 = some clientID →
      (blockClient sch env0 db p0 body0).1.status = 201 →
      blockClient sch env (blockClient sch env0 db p0 body0).2 p (some req) =
        (⟨409, none⟩, (blockClient sch env0 db p0 body0).2)) := by
  have hb := bindNewBlock_some h1 h2 h3
  constructor
  · rintro ⟨r, hr, hc, ha⟩
    exact blockClient_of_active hp hb hread hr hc ha
  · intro env0 p0 body0 hp0 h201
    obtain ⟨c, req0, hpc, _, _, _, _, heq⟩ := blockClient_created h201
    have hcc : c = clientID := by rw [hp0] at hpc; exact (Option.some.inj hpc).symm
    rw [heq]
    exact blockClient_of_active (r := storedRow (newEntry env0 c req0)) hp hb hread
      (by simp) hcc rfl

theorem block_conflict_witness :
    blockClient ⟨false⟩ (envAt 200000 8) [liftedRow 5, activeRow 7] clientA
        (some ⟨"FRAUD", "dup", "agent-2"⟩) = (⟨409, none⟩, [liftedRow 5, activeRow 7]) ∧
      (blockClient ⟨false⟩ (envAt 100000 7) [liftedRow 5] clientA
        (some fraudBody)).1.status = 201 ∧
      blockClient ⟨false⟩ (envAt 200000 8)
        (blockClient ⟨false⟩ (envAt 100000 7) [liftedRow 5] clientA (some fraudBody)).2 clientA
        (some ⟨"FRAUD", "dup", "agent-2"⟩) =
        (⟨409, none⟩,
          (blockClient ⟨false⟩ (envAt 100000 7) [liftedRow 5] clientA (some fraudBody)).2) :=
  ⟨(block_conflict ⟨false⟩ (envAt 200000 8) [liftedRow 5, activeRow 7] clientA
      ⟨"FRAUD", "dup", "agent-2"⟩ clientAId uuidParse_clientA (by decide) (by decide)
      (by decide) rfl).1 ⟨activeRow 7, by decide, rfl, rfl⟩,
    by decide,
    (block_conflict ⟨false⟩ (envAt 200000 8) [liftedRow 5] clientA
      ⟨"FRAUD", "dup", "agent-2"⟩ clientAId uuidParse_clientA (by decide) (by decide)
      (by decide) rfl).2 (envAt 100000 7) clientA (some fraudBody) uuidParse_clientA
      (by decide)⟩

/-- C4, counterexample. Three runs on tables with at most one active block per
client, each with a POST answered 201. With the clock one nanosecond past a
whole microsecond the POST returns that reading as `CreatedAt`, the GET returns
the row as the table keeps it, and the two records differ. With the lookup of the
GET failing the GET is answered 404. With the lookup of the POST failing beside
an older active block the GET returns the older block. -/
theorem status_after_create_differs :
    atMostOneActive [liftedRow 5] ∧ atMostOneActive [activeRow 7] ∧
      (blockClient ⟨false⟩ (envAt 100001 7) [liftedRow 5] clientA (some fraudBody)).1 =
        ⟨201, some { activeRow 7 with CreatedAt := 100001 }⟩ ∧
      getBlockStatus (envAt 100002 0)
          (blockClient ⟨false⟩ (envAt 100001 7) [liftedRow 5] clientA (some fraudBody)).2
          clientA = ⟨200, some (activeRow 7)⟩ ∧
      activeRow 7 ≠ { activeRow 7 with CreatedAt := 100001 } ∧
      (blockClient ⟨false⟩ (envAt 100000 7) [liftedRow 5] clientA
        (some fraudBody)).1.status = 201 ∧
      getBlockStatus (envLookupFails 100002 0)
          (blockClient ⟨false⟩ (envAt 100000 7) [liftedRow 5] clientA (some fraudBody)).2
          clientA = ⟨404, none⟩ ∧
      (blockClient ⟨false⟩ (envLookupFails 101000 8) [activeRow 7] clientA
        (some ⟨"FRAUD", "dup", "agent-2"⟩)).1 = ⟨201, some entryB⟩ ∧
      getBlockStatus (envAt 102000 0)
          (blockClient ⟨false⟩ (envLookupFails 101000 8) [activeRow 7] clientA
            (some ⟨"FRAUD", "dup", "agent-2"⟩)).2
          clientA = ⟨200, some (activeRow 7)⟩ ∧
      activeRow 7 ≠ entryB :=
  ⟨(atMostOneActive_iff _).mpr (by decide), (atMostOneActive_iff _).mpr (by decide),
    by decide, by decide, by decide, by decide, by decide, by decide, by decide, by decide⟩

/-- C4, amended. When a POST is answered 201, its lookup having been answered by
the table or the table carrying the constraint on active rows, a GET for the
same client served right after it, its lookup answered as well, is answered 200
with the record the POST returned in which `CreatedAt` is cut to whole
microseconds: same key, client, type, reason and creator, active, both unblock
fields unset. When the clock reading of the POST is a whole number of
microseconds this is the very record the POST returned. This holds on every
table, those with at most one active block per client included. -/
theorem create_then_status_round_trip (sch : Schema) (env env2 : Env) (db : Store)
    (p p2 : String) (body : Option NewBlockRequest) (hsame : uuidParse p2 = uuidParse p)
    (h201 : (blockClient sch env db p body).1.status = 201)
    (hpost : env.readFault = false ∨ sch.uniqueActive = true)
    (hget : env2.readFault = false) :
    ∃ entry, (blockClient sch env db p body).1 = ⟨201, some entry⟩ ∧
      getBlockStatus env2 (blockClient sch env db p body).2 p2 =
        ⟨200, some { entry with CreatedAt := storedTime entry.CreatedAt }⟩ ∧
      (storedTime env.now = env.now →
        getBlockStatus env2 (blockClient sch env db p body).2 p2 = ⟨200, some entry⟩) ∧
      entry.CreatedAt = env.now ∧ entry.IsActive = true ∧
      entry.UnblockedAt = none ∧ entry.UnblockedByUserID = none := by
  obtain ⟨c, req, hp, _, hn, _, _, heq⟩ := blockClient_created h201
  have hnil : activeOf db c = [] := by
    rcases hn with hn | ⟨hr, hu⟩
    · exact hn
    · rcases hpost with h | h
      · rw [h] at hr; simp at hr
      · rw [h] at hu; simp at hu
  have hact : activeOf (db ++ [storedRow (newEntry env c req)]) c =
      [storedRow (newEntry env c req)] := by
    rw [activeOf_append, hnil]
    simp [activeOf, newEntry, storedRow]
  have hstatus : getBlockStatus env2 (db ++ [storedRow (newEntry env c req)]) p2 =
      ⟨200, some (storedRow (newEntry env c req))⟩ := by
    simp [getBlockStatus, hsame, hp, hget, dbFirstActive_of_singleton hact]
  rw [heq]
  refine ⟨newEntry env c req, rfl, hstatus, ?_, rfl, rfl, rfl, rfl⟩
  intro hwhole
  rw [hstatus]
  simp [storedRow, newEntry, hwhole]

theorem create_then_status_round_trip_witness :
    (blockClient ⟨false⟩ (envAt 100000 7) [liftedRow 5] clientA
        (some fraudBody)).1.status = 201 ∧
      ∃ entry, (blockClient ⟨false⟩ (envAt 100000 7) [liftedRow 5] clientA
          (some fraudBody)).1 = ⟨201, some entry⟩ ∧
        getBlockStatus (envAt 100500 0)
          (blockClient ⟨false⟩ (envAt 100000 7) [liftedRow 5] clientA (some fraudBody)).2
          clientA = ⟨200, some { entry with CreatedAt := storedTime entry.CreatedAt }⟩ ∧
        (storedTime (envAt 100000 7).now = (envAt 100000 7).now →
          getBlockStatus (envAt 100500 0)
            (blockClient ⟨false⟩ (envAt 100000 7) [liftedRow 5] clientA (some fraudBody)).2
            clientA = ⟨200, some entry⟩) ∧
        entry.CreatedAt = (envAt 100000 7).now ∧ entry.IsActive = true ∧
        entry.UnblockedAt = none ∧ entry.UnblockedByUserID = none :=
  ⟨by decide, create_then_status_round_trip ⟨false⟩ (envAt 100000 7) (envAt 100500 0)
    [liftedRow 5] clientA clientA (some fraudBody) rfl (by decide) (Or.inl rfl) rfl⟩

/-- C5, counterexample. The create call of scenario A, `CreateBlock("c1", "FRAUD",
"suspicious activity", "agent-1")`, on the empty table: the path parameter `c1`
is not the text of a UUID, the reply is 400 and nothing is stored. -/
theorem create_c1_rejected :
    (∀ r ∈ ([] : Store), r.IsActive = false) ∧
      fraudBody.BlockType ≠ "" ∧ fraudBody.ReasonDescription ≠ "" ∧
      fraudBody.CreatedByUserID ≠ "" ∧
      blockClient ⟨false⟩ (envAt 100000 7) [] "c1" (some fraudBody) = (⟨400, none⟩, []) := by
  decide

/-- C5, amended. On a table with no active block of the client, a POST whose path
parameter parses as a UUID and whose three body fields are non-empty, served
while the generated key is not the key of an existing row and the insert is
carried out, is answered 201 with the record made of the generated key, the
parsed client, `IsActive = true`, the clock reading, the three supplied fields
and both unblock fields unset; the table afterwards is the old table followed by
that one record, its `CreatedAt` kept to whole microseconds. This holds whether
or not the lookup of the request is answered. -/
theorem create_success (sch : Schema) (env : Env) (db : Store) (p : String)
    (req : NewBlockRequest) (clientID : UUID) (hp : uuidParse p = some clientID)
    (h1 : req.BlockType ≠ "") (h2 : req.ReasonDescription ≠ "")
    (h3 : req.CreatedByUserID ≠ "")
    (hnone : ∀ r ∈ db, r.ClientID = clientID → r.IsActive = false)
    (hfresh : ∀ r ∈ db, r.ID ≠ env.newId) (hw : env.writeFault = false) :
    blockClient sch env db p (some req) =
      (⟨201, some
          { ID := env.newId
            ClientID := clientID
            IsActive := true
            BlockType := req.BlockType
            ReasonDescription := req.ReasonDescription
            CreatedAt := env.now
            CreatedByUserID := req.CreatedByUserID
            UnblockedAt := none
            UnblockedByUserID := none }⟩,
        db ++ [{ ID := env.newId
                 ClientID := clientID
                 IsActive := true
                 BlockType := req.BlockType
                 ReasonDescription := req.ReasonDescription
                 CreatedAt := storedTime env.now
                 CreatedByUserID := req.CreatedByUserID
                 UnblockedAt := none
                 UnblockedByUserID := none }]) := by
  have hb := bindNewBlock_some h1 h2 h3
  have hn : activeOf db clientID = [] := by
    unfold activeOf
    rw [List.filter_eq_nil_iff]
    intro r hr
    by_cases hc : r.ClientID = clientID
    · simp [hnone r hr hc]
    · simp [hc]
  have hcreate : dbCreate sch env.writeFault db (newEntry env clientID req) =
      .ok (db ++ [storedRow (newEntry env clientID req)]) := by
    rw [hw]
    exact dbCreate_fresh hfresh hn
  obtain ⟨e, he⟩ := dbFirstActive_error_of_nil env.readFault hn
  simp only [blockClient, blockClientCheck, hp, hb, he, blockClientInsert, hcreate]
  rfl

theorem create_success_witness :
    blockClient ⟨true⟩ (envAt 100000 7) [liftedRow 5] clientA (some fraudBody) =
      (⟨201, some (activeRow 7)⟩, [liftedRow 5, activeRow 7]) :=
  create_success ⟨true⟩ (envAt 100000 7) [liftedRow 5] clientA fraudBody clientAId
    uuidParse_clientA (by decide) (by decide) (by decide) (by decide) (by decide) rfl

/-- C6, counterexample. A table holding two active blocks of one client, keys 1
and 2: the DELETE is answered with the lifted block of key 1, which is not the
block of key 2 with its three fields changed, although that block is an active
record of the client as well. On a table holding one active block of the client,
a DELETE whose lookup fails is answered 404 and one whose update fails is
answered 500, the table unchanged in both. -/
theorem unblock_other_active_row :
    activeRow 2 ∈ [activeRow 1, activeRow 2] ∧ (activeRow 2).ClientID = clientAId ∧
      (activeRow 2).IsActive = true ∧ pkUnique [activeRow 1, activeRow 2] ∧
      (unblockClient ⟨false⟩ (envAt 300000 0) [activeRow 1, activeRow 2] clientA
          (some ⟨"agent-3"⟩)).1 =
        ⟨200, some { activeRow 1 with
          IsActive := false
          UnblockedAt := some 300000
          UnblockedByUserID := some "agent-3" }⟩ ∧
      (unblockClient ⟨false⟩ (envAt 300000 0) [activeRow 1, activeRow 2] clientA
          (some ⟨"agent-3"⟩)).1 ≠
        ⟨200, some { activeRow 2 with
          IsActive := false
          UnblockedAt := some 300000
          UnblockedByUserID := some "agent-3" }⟩ ∧
      unblockClient ⟨false⟩ (envLookupFails 300000 0) [liftedRow 5, activeRow 7] clientA
          (some ⟨"agent-3"⟩) = (⟨404, none⟩, [liftedRow 5, activeRow 7]) ∧
      unblockClient ⟨false⟩ (envWriteFails 300000 0) [liftedRow 5, activeRow 7] clientA
          (some ⟨"agent-3"⟩) = (⟨500, none⟩, [liftedRow 5, activeRow 7]) := by
  decide

/-- C6, amended. On a table with distinct keys in which `r` is the only active
block of the client, a DELETE whose path parameter parses to that client and
whose actor `u` is non-empty, served while the lookup is answered by the table
and the update is carried out, is answered 200 with `r` in which
`IsActive = false`, `UnblockedAt` is the clock reading and
`UnblockedByUserID = u`, every other field being that of `r`; the table
afterwards is the old one with `r` replaced in place by that record, its times
kept to whole microseconds: every other row is unchanged and the number of rows
is the same. -/
theorem unblock_effect_and_frame (sch : Schema) (env : Env) (db : Store) (p : String)
    (req : UnblockRequest) (clientID : UUID) (r : ClientPaymentBlock)
    (hp : uuidParse p = some clientID) (hactor : req.UnblockedByUserID ≠ "")
    (hr : r ∈ db) (hc : r.ClientID = clientID) (ha : r.IsActive = true)
    (honly : ∀ x ∈ db, x.ClientID = clientID → x.IsActive = true → x = r)
    (hpk : pkUnique db) (hread : env.readFault = false) (hw : env.writeFault = false) :
    unblockClient sch env db p (some req) =
      (⟨200, some { r with
          IsActive := false
          UnblockedAt := some env.now
          UnblockedByUserID := some req.UnblockedByUserID }⟩,
        db.map (fun x => if x = r then
          { r with
            IsActive := false
            CreatedAt := storedTime r.CreatedAt
            UnblockedAt := some (storedTime env.now)
            UnblockedByUserID := some req.UnblockedByUserID } else x)) ∧
      (unblockClient sch env db p (some req)).2.length = db.length ∧
      ∀ x ∈ db, x ≠ r → x ∈ (unblockClient sch env db p (some req)).2 := by
  have hb := bindUnblock_some hactor
  obtain ⟨b, hf⟩ := dbFirstActive_of_mem hr hc ha
  have hbr : b = r := by
    obtain ⟨_, hm, hbc, hba⟩ := dbFirstActive_ok hf
    exact honly b hm hbc hba
  subst hbr
  have hmap : db.map (fun x => if x.ID = b.ID then storedRow (lifted env b req) else x) =
      db.map (fun x => if x = b then storedRow (lifted env b req) else x) := by
    apply List.map_congr_left
    intro x hx
    by_cases hxb : x = b
    · simp [hxb]
    · have : x.ID ≠ b.ID := fun hid => hxb (eq_of_pkUnique hpk hx hr hid)
      simp [hxb, this]
  have heq : unblockClient sch env db p (some req) =
      (⟨200, some (lifted env b req)⟩,
        db.map (fun x => if x = b then storedRow (lifted env b req) else x)) := by
    simp only [unblockClient, hp, hb, hread, hf, hw, dbSave_lifted hr, hmap]
  refine ⟨heq, ?_, ?_⟩
  · rw [heq]; simp
  · intro x hx hne
    rw [heq]
    exact List.mem_map.mpr ⟨x, hx, by simp [hne]⟩

theorem unblock_effect_and_frame_witness :
    unblockClient ⟨false⟩ (envAt 150000 0) [liftedRow 5, activeRow 7] clientA
        (some ⟨"agent-3"⟩) = (⟨200, some (liftedRow 7)⟩, [liftedRow 5, liftedRow 7]) ∧
      (unblockClient ⟨false⟩ (envAt 150000 0) [liftedRow 5, activeRow 7] clientA
        (some ⟨"agent-3"⟩)).2.length = 2 ∧
      ∀ x ∈ [liftedRow 5, activeRow 7], x ≠ activeRow 7 →
        x ∈ (unblockClient ⟨false⟩ (envAt 150000 0) [liftedRow 5, activeRow 7] clientA
          (some ⟨"agent-3"⟩)).2 :=
  unblock_effect_and_frame ⟨false⟩ (envAt 150000 0) [liftedRow 5, activeRow 7] clientA
    ⟨"agent-3"⟩ clientAId (activeRow 7) uuidParse_clientA (by decide) (by decide) rfl rfl
    (by decide) (by decide) rfl rfl

/-- C7. On a table with at most one active block per client, after a DELETE for
a client answered 200, a second DELETE for the same client with any non-empty
actor, whatever its clock, lookup outcome and write outcome, is answered 404 and
leaves the table as the first one left it: the record the first call returned is
in that table as the table keeps it, inactive, with the `UnblockedAt` (to the
microsecond) and `UnblockedByUserID` the first call wrote. -/
theorem unblock_idempotent (sch : Schema) (env env2 : Env) (db : Store) (p p2 : String)
    (body : Option UnblockRequest) (req2 : UnblockRequest) (hinv : atMostOneActive db)
    (h200 : (unblockClient sch env db p body).1.status = 200)
    (hsame : uuidParse p2 = uuidParse p) (hactor : req2.UnblockedByUserID ≠ "") :
    unblockClient sch env2 (unblockClient sch env db p body).2 p2 (some req2) =
        (⟨404, none⟩, (unblockClient sch env db p body).2) ∧
      ∃ b req, body = some req ∧ (unblockClient sch env db p body).1.body = some b ∧
        storedRow b ∈
          (unblockClient sch env2 (unblockClient sch env db p body).2 p2 (some req2)).2 ∧
        b.IsActive = false ∧ b.UnblockedAt = some env.now ∧
        b.UnblockedByUserID = some req.UnblockedByUserID ∧
        (storedRow b).IsActive = false ∧
        (storedRow b).UnblockedAt = some (storedTime env.now) ∧
        (storedRow b).UnblockedByUserID = some req.UnblockedByUserID := by
  obtain ⟨c, req, block, hp, hb, hf, _, heq⟩ := unblockClient_done h200
  obtain ⟨_, hm, hc, ha⟩ := dbFirstActive_ok hf
  have hone : activeOf db c = [block] :=
    activeOf_eq_singleton (hinv c) (mem_activeOf.mpr ⟨hm, hc, ha⟩)
  have hnil : activeOf
      (db.map (fun r => if r.ID = block.ID then storedRow (lifted env block req) else r))
      c = [] := by
    unfold activeOf
    rw [List.filter_eq_nil_iff]
    intro y hy
    obtain ⟨x, hx, hfx⟩ := List.mem_map.mp hy
    by_cases hk : x.ID = block.ID
    · simp only [hk, if_true] at hfx
      subst hfx
      simp [lifted, storedRow]
    · simp only [hk, if_false] at hfx
      subst hfx
      intro hact
      simp only [Bool.and_eq_true, beq_iff_eq] at hact
      have hxm : x ∈ activeOf db c := mem_activeOf.mpr ⟨hx, hact.1, hact.2⟩
      rw [hone] at hxm
      simp only [List.mem_singleton] at hxm
      exact hk (by rw [hxm])
  obtain ⟨e, he⟩ := dbFirstActive_error_of_nil env2.readFault hnil
  have hsecond : unblockClient sch env2
      (db.map (fun r => if r.ID = block.ID then storedRow (lifted env block req) else r))
      p2 (some req2) =
      (⟨404, none⟩,
        db.map (fun r => if r.ID = block.ID then storedRow (lifted env block req) else r)) := by
    simp only [unblockClient, hsame, hp, bindUnblock_some hactor, he]
  have hbody : body = some req := by
    cases body with
    | none => simp [bindUnblock] at hb
    | some r0 =>
      simp only [bindUnblock] at hb
      split at hb
      · simp at hb
      · exact hb
  rw [heq]
  refine ⟨hsecond, lifted env block req, req, hbody, rfl, ?_, rfl, rfl, rfl, rfl, rfl, rfl⟩
  rw [hsecond]
  exact List.mem_map.mpr ⟨block, hm, by simp⟩

theorem unblock_idempotent_witness :
    atMostOneActive [liftedRow 5, activeRow 7] ∧
      (unblockClient ⟨false⟩ (envAt 150000 0) [liftedRow 5, activeRow 7] clientA
        (some ⟨"agent-3"⟩)).1.status = 200 ∧
      unblockClient ⟨false⟩ (envAt 160000 0) [liftedRow 5, liftedRow 7] clientA
        (some ⟨"agent-4"⟩) = (⟨404, none⟩, [liftedRow 5, liftedRow 7]) :=
  ⟨(atMostOneActive_iff _).mpr (by decide), by decide,
    (unblock_idempotent ⟨false⟩ (envAt 150000 0) (envAt 160000 0) [liftedRow 5, activeRow 7]
      clientA clientA (some ⟨"agent-3"⟩) ⟨"agent-4"⟩ ((atMostOneActive_iff _).mpr (by decide))
      (by decide) rfl (by decide)).1⟩

/-- C9. A POST answered with anything but 201 is answered 400, 409 or 500 and
leaves the table as it was; a DELETE answered with anything but 200 is answered
400, 404 or 500 and leaves the table as it was (a write that fails is not
applied); a GET leaves the table as it was whatever it is answered. -/
theorem no_effect_without_success (sch : Schema) (env : Env) (db : Store) (p : String) :
    (∀ body : Option NewBlockRequest, (blockClient sch env db p body).1.status ≠ 201 →
      ((blockClient sch env db p body).1.status = 400 ∨
        (blockClient sch env db p body).1.status = 409 ∨
        (blockClient sch env db p body).1.status = 500) ∧
      (blockClient sch env db p body).2 = db) ∧
    (∀ body : Option UnblockRequest, (unblockClient sch env db p body).1.status ≠ 200 →
      ((unblockClient sch env db p body).1.status = 400 ∨
        (unblockClient sch env db p body).1.status = 404 ∨
        (unblockClient sch env db p body).1.status = 500) ∧
      (unblockClient sch env db p body).2 = db) ∧
    (serve sch db env (.get p)).2 = db := by
  refine ⟨?_, ?_, rfl⟩
  · intro body hne
    rcases blockClient_cases sch env db p body with h | ⟨_, _, _, _, _, _, _, heq⟩
    · exact ⟨h.1, h.2.2⟩
    · rw [heq] at hne; simp at hne
  · intro body hne
    rcases unblockClient_cases sch env db p body with h | ⟨_, _, _, _, _, _, _, heq⟩
    · exact ⟨h.1, h.2.2⟩
    · rw [heq] at hne; simp at hne

theorem no_effect_without_success_witness :
    (blockClient ⟨false⟩ (envAt 200000 5) [liftedRow 5] clientA
        (some fraudBody)).1.status = 500 ∧
      (blockClient ⟨false⟩ (envAt 200000 5) [liftedRow 5] clientA (some fraudBody)).2 =
        [liftedRow 5] ∧
      (unblockClient ⟨false⟩ (envWriteFails 200000 5) [activeRow 7] clientA
        (some ⟨"agent-3"⟩)).1.status = 500 ∧
      (unblockClient ⟨false⟩ (envWriteFails 200000 5) [activeRow 7] clientA
        (some ⟨"agent-3"⟩)).2 = [activeRow 7] :=
  ⟨by decide,
    ((no_effect_without_success ⟨false⟩ (envAt 200000 5) [liftedRow 5] clientA).1
      (some fraudBody) (by decide)).2,
    by decide,
    ((no_effect_without_success ⟨false⟩ (envWriteFails 200000 5) [activeRow 7] clientA).2.1
      (some ⟨"agent-3"⟩) (by decide)).2⟩

/-- C10. Starting from a table with distinct keys in which every active row has
both unblock fields unset and every inactive row has both set, any finite
sequence of POST, DELETE and GET requests served one at a time leaves a table
with the same two properties, and every row that had an unblock field set at the
start is still in the table, unchanged in every field: it has not been made
active again and its unblock fields have been neither changed nor cleared. -/
theorem lifted_fields_invariant (sch : Schema) (db : Store) (reqs : List (Env × Request))
    (hpk : pkUnique db) (hok : liftedFieldsOk db) :
    liftedFieldsOk (serveAll sch db reqs) ∧ pkUnique (serveAll sch db reqs) ∧
      ∀ r ∈ db, (r.UnblockedAt ≠ none ∨ r.UnblockedByUserID ≠ none) →
        r ∈ serveAll sch db reqs := by
  induction reqs generalizing db with
  | nil => exact ⟨hok, hpk, fun r hr _ => hr⟩
  | cons x rest ih =>
    obtain ⟨env, rq⟩ := x
    obtain ⟨h1, h2, h3⟩ := ih _ (serve_pkUnique sch db env rq hpk)
      (serve_liftedFieldsOk sch db env rq hok)
    exact ⟨h1, h2, fun r hr hset => h3 r (serve_keeps_lifted sch db env rq hpk hok hr hset) hset⟩

theorem lifted_fields_invariant_witness :
    pkUnique [liftedRow 5, activeRow 7] ∧ liftedFieldsOk [liftedRow 5, activeRow 7] ∧
      liftedRow 5 ∈ serveAll ⟨false⟩ [liftedRow 5, activeRow 7]
        [(envAt 150000 0, .delete clientA (some ⟨"agent-3"⟩)),
         (envAt 220000 10, .post clientA (some fraudBody)),
         (envLookupFails 225000 11, .post clientA (some fraudBody)),
         (envAt 230000 12, .delete clientA (some ⟨"agent-9"⟩)),
         (envAt 240000 5, .post clientA (some fraudBody))] :=
  ⟨by decide, by decide,
    (lifted_fields_invariant ⟨false⟩ [liftedRow 5, activeRow 7] _ (by decide) (by decide)).2.2
      (liftedRow 5) (by decide) (by decide)⟩

/-- C2, on the code. Two POST requests for one client, on the empty table without
the constraint on active rows, scheduled lookup, lookup, insert, insert: each
lookup finds no active block, each insert is carried out, both requests are
answered 201 and the table ends with two active blocks of the client. -/
theorem concurrent_blocks_both_succeed :
    interleave ⟨false⟩ callA callB [true, false, true, false] (.start, .start, []) =
        (.done ⟨201, some (activeRow 7)⟩, .done ⟨201, some entryB⟩, [activeRow 7, entryB]) ∧
      (activeOf [activeRow 7, entryB] clientAId).length = 2 := by
  decide

/-- C8, on the code. Whatever error the insert reports, the reply is 500; on a table
with the constraint on active rows, under the schedule lookup, lookup, insert,
insert, the second insert is refused because the client already has an active
block, and that request is answered 500, not 409. -/
theorem duplicate_active_insert_answers_500 :
    (∀ (sch : Schema) (env : Env) (db : Store) (clientID : UUID) (req : NewBlockRequest)
        (e : DbError), dbCreate sch env.writeFault db (newEntry env clientID req) = .error e →
        blockClientInsert sch env db clientID req = (⟨500, none⟩, db)) ∧
      dbCreate ⟨true⟩ false [activeRow 7] entryB = .error .duplicateActive ∧
      interleave ⟨true⟩ callA callB [true, false, true, false] (.start, .start, []) =
        (.done ⟨201, some (activeRow 7)⟩, .done ⟨500, none⟩, [activeRow 7]) := by
  refine ⟨?_, rfl, by decide⟩
  intro sch env db clientID req e h
  simp [blockClientInsert, h]

end PaymentBlock
